import Mathlib

/-!
Shallow embedding of the monitor-toggling core of XToggle
(src/xtoggle.py, with the near-identical earlier version src/nvidia_toggle.py).

Modelling conventions:
* The mutable Python list `sorted_monitors` of `Monitor` objects becomes a
  `List Monitor`; in-place mutation becomes a function returning the new list.
* Python object identity (`monitor is primary`, `target = sorted_monitors[i]`)
  is modelled by the monitor's index in the list: the objects in
  `sorted_monitors` are pairwise distinct Python objects, so identity of an
  element of the list is exactly its position.
* `width`/`height` are natural numbers, following the data model (positive
  pixel sizes); `xpos`/`ypos` are integers.
* `rate` is carried as the already-formatted refresh-rate text: the scripts
  only ever interpolate the float into the generated command.
* `sys.exit` failure paths of the command synthesizer / pipeline become
  `Except RunError`.
-/

/-- The `Monitor` record (class `Monitor` in xtoggle.py).  `metamodes` is the
opaque backend mode descriptor from the nvidia xorg configuration. -/
structure Monitor where
  name : String
  xpos : Int
  ypos : Int
  rank : Nat
  width : Nat
  height : Nat
  rate : String
  is_enabled : Bool
  metamodes : String
  deriving DecidableEq, Repr

/-- `get_enabled` from xtoggle.py (called `filter_out_disabled` in
nvidia_toggle.py): the sublist of enabled monitors, in list order. -/
def get_enabled (monitors : List Monitor) : List Monitor :=
  monitors.filter (fun mon => mon.is_enabled)

/-- `enable_all` from both scripts: set every `is_enabled` flag. -/
def enable_all (monitors : List Monitor) : List Monitor :=
  monitors.map (fun mon => { mon with is_enabled := true })

/-- `only_target` from both scripts: disable every monitor, then enable the
target (given by its index `t` in the sorted list). -/
def only_target (monitors : List Monitor) (t : Nat) : List Monitor :=
  let off := monitors.map (fun mon => { mon with is_enabled := false })
  match off[t]? with
  | some mon => off.set t { mon with is_enabled := true }
  | none => off

/-- The `toggle` action branch of xtoggle.py:
`target.is_enabled = not target.is_enabled` for `target = sorted_monitors[t]`. -/
def toggle (monitors : List Monitor) (t : Nat) : List Monitor :=
  match monitors[t]? with
  | some mon => monitors.set t { mon with is_enabled := !mon.is_enabled }
  | none => monitors

/-- The `toggle-only` action branch of xtoggle.py: if the target is enabled
and exactly one monitor is enabled, enable all monitors; otherwise make the
target the only enabled monitor. -/
def toggle_only (monitors : List Monitor) (t : Nat) : List Monitor :=
  match monitors[t]? with
  | some tgt =>
    if tgt.is_enabled = true ∧ (get_enabled monitors).length = 1 then
      enable_all monitors
    else
      only_target monitors t
  | none => monitors

/-- The `toggle-only` action branch of nvidia_toggle.py: if the target is
disabled or more than one monitor is enabled, make the target the only
enabled monitor; otherwise enable all monitors. -/
def toggle_only_nv (monitors : List Monitor) (t : Nat) : List Monitor :=
  match monitors[t]? with
  | some tgt =>
    if tgt.is_enabled = false ∨ 1 < (get_enabled monitors).length then
      only_target monitors t
    else
      enable_all monitors
  | none => monitors

/-- Loop body of `recalculate_positions`: walk the monitor list threading the
running `total_width`; each enabled monitor gets `xpos := total_width` and
adds its width to the total; disabled monitors are left untouched (the Python
loop iterates over `get_enabled(monitors)` and mutates in place, which is the
same traversal). -/
def recalc_go (total : Nat) : List Monitor → List Monitor
  | [] => []
  | mon :: rest =>
    if mon.is_enabled then
      { mon with xpos := (total : Int) } :: recalc_go (total + mon.width) rest
    else
      mon :: recalc_go total rest

/-- `recalculate_positions` from both scripts (the two versions are
line-identical): repack the enabled monitors left to right starting at 0. -/
def recalculate_positions (monitors : List Monitor) : List Monitor :=
  recalc_go 0 monitors

/-- Index of the first enabled monitor: the Python `get_enabled(monitors)[0]`,
with `none` standing for the `IndexError` raised on an empty list. -/
def firstEnabledIdx (monitors : List Monitor) : Option Nat :=
  monitors.findIdx? (fun mon => mon.is_enabled)

/-- `get_new_primary` from xtoggle.py: the previously designated primary if it
is still enabled, else the first enabled monitor.  `original_primary` is the
index of the recorded primary (`none` when no primary was recorded); a `none`
result models the `IndexError` of indexing an empty enabled list. -/
def get_new_primary (monitors : List Monitor) (original_primary : Option Nat) :
    Option Nat :=
  match original_primary with
  | some p =>
    match monitors[p]? with
    | some mon => if mon.is_enabled then some p else firstEnabledIdx monitors
    | none => firstEnabledIdx monitors
  | none => firstEnabledIdx monitors

/-- A single-quote character, as embedded by the Python literal around the
output name. -/
def squote : String := String.singleton (Char.ofNat 39)

/-- The per-monitor option words of `create_xrandr_command` in xtoggle.py:
for an enabled monitor `[output, mode, rate, pos] ++ optional "--primary"`
(`filter(None, ...)` dropping the absent primary flag), for a disabled
monitor the single word group `--output <name> --off`.  `isPrimary` is the
Python identity test `monitor is primary`. -/
def xrandr_clause_parts (mon : Monitor) (isPrimary : Bool) : List String :=
  let output := "--output " ++ squote ++ mon.name ++ squote
  if mon.is_enabled then
    let mode := "--mode " ++ toString mon.width ++ "x" ++ toString mon.height
    let rateOpt := "--rate " ++ mon.rate
    let pos := "--pos " ++ toString mon.xpos ++ "x" ++ toString mon.ypos
    let primary_opt : Option String :=
      if isPrimary then some "--primary" else none
    ([some output, some mode, some rateOpt, some pos, primary_opt]).filterMap id
  else
    [output ++ " --off"]

/-- The list of per-monitor clauses of the xrandr command, for primary index
`q`, starting at list position `i`. -/
def xrandr_clauses (q : Nat) : Nat → List Monitor → List (List String)
  | _, [] => []
  | i, mon :: rest => xrandr_clause_parts mon (i == q) :: xrandr_clauses q (i + 1) rest

/-- `create_xrandr_command` from xtoggle.py, with the primary monitor given
by its index `q`. -/
def create_xrandr_command (monitors : List Monitor) (q : Nat) : String :=
  "xrandr " ++ String.intercalate " "
    ((xrandr_clauses q 0 monitors).map (String.intercalate " "))

/-- `Monitor.get_new_metamodes` from xtoggle.py: split the stored metamodes
string on `+` and replace the second field with the freshly computed xpos. -/
def get_new_metamodes (mon : Monitor) : String :=
  let parts := mon.metamodes.splitOn "+"
  String.intercalate "+" (parts.set 1 (toString mon.xpos))

/-- `create_nvidia_command` from xtoggle.py, with the primary monitor given by
its index `q` (the Python code only uses `primary.name`). -/
def create_nvidia_command (monitors : List Monitor) (q : Nat) : String :=
  let all_metamodes := (get_enabled monitors).map get_new_metamodes
  let pname := ((monitors[q]?).map (fun mon => mon.name)).getD ""
  "nvidia-settings --assign CurrentMetaMode=\"" ++
    String.intercalate ", " all_metamodes ++
    "\" --assign XineramaInfoOrder=\"" ++ pname ++ "\""

/-- Failure modes of the synthesis pipeline (spec taxonomy plus the raw
Python exceptions): `validationError` is the `sys.exit` on an empty enabled
set, `badManagerError` the `ValueError` on an unknown manager, `indexError`
the `IndexError` of `get_enabled(monitors)[0]` on an empty list. -/
inductive RunError where
  | validationError : RunError
  | badManagerError : RunError
  | indexError : RunError
  deriving DecidableEq, Repr

/-- The manager name constant `XRANDR` from xtoggle.py. -/
def XRANDR : String := "xrandr"

/-- The manager name constant `NVIDIA` from xtoggle.py. -/
def NVIDIA : String := "nvidia"

/-- `create_command` from xtoggle.py: fail when no monitor is enabled,
otherwise dispatch on the manager string. -/
def create_command (monitors : List Monitor) (q : Nat) (manager : String) :
    Except RunError String :=
  if get_enabled monitors = [] then
    Except.error RunError.validationError
  else if manager = XRANDR then
    Except.ok (create_xrandr_command monitors q)
  else if manager = NVIDIA then
    Except.ok (create_nvidia_command monitors q)
  else
    Except.error RunError.badManagerError

/-- The action pipeline at the bottom of xtoggle.py (lines 361-365):
recalculate positions, then compute the new primary, then synthesize the
command. -/
def main_pipeline (monitors : List Monitor) (original_primary : Option Nat)
    (manager : String) : Except RunError String :=
  let repositioned := recalculate_positions monitors
  match get_new_primary repositioned original_primary with
  | none => Except.error RunError.indexError
  | some q => create_command repositioned q manager

/-- One `logicalmonitor` entry of monitors.xml as seen by the parsing loop:
whether its connector names a connected monitor (otherwise the loop
`continue`s), the connector name, and the `primary` tag (`none` when the tag
is absent, `some txt` when present with text `txt`, which is itself `none`
for an empty tag). -/
structure XmlEntry where
  connected : Bool
  name : String
  primaryTag : Option (Option String)
  deriving DecidableEq, Repr

/-- One iteration of the primary-status parsing in xtoggle.py lines 199-204
(identical in nvidia_toggle.py lines 160-165): on a connected entry with a
`primary` tag, `original_primary` becomes this monitor if the tag text is
`yes` and `None` otherwise; in every other case it is left unchanged. -/
def primary_step (acc : Option String) (e : XmlEntry) : Option String :=
  if e.connected then
    match e.primaryTag with
    | none => acc
    | some txt => if txt = some "yes" then some e.name else none
  else acc

/-- The `original_primary` computed by the monitors.xml parsing loop, starting
from `None`. -/
def parse_original_primary (entries : List XmlEntry) : Option String :=
  entries.foldl primary_step none

/-! ### Basic helper lemmas -/

theorem set_of_lookup {α : Type} (l : List α) (t : Nat) (a : α)
    (h : l[t]? = some a) : l.set t a = l := by
  induction l generalizing t with
  | nil => simp at h
  | cons x xs ih =>
    cases t with
    | zero => simp_all
    | succ n => simp_all [ih]

theorem only_target_lookup (monitors : List Monitor) (t i : Nat)
    (ht : t < monitors.length) :
    (only_target monitors t)[i]? =
      (monitors[i]?).map (fun mon => { mon with is_enabled := decide (i = t) }) := by
  have hofft : (monitors.map (fun mon => { mon with is_enabled := false }))[t]? =
      some { monitors[t] with is_enabled := false } := by
    simp [List.getElem?_eq_getElem, ht]
  by_cases hit : i = t
  · subst hit
    simp only [only_target, hofft]
    rw [List.getElem?_set_self (by simpa using ht)]
    simp [List.getElem?_eq_getElem, ht]
  · simp only [only_target, hofft]
    rw [List.getElem?_set_ne (fun h => hit h.symm)]
    simp [hit]

theorem only_target_length (monitors : List Monitor) (t : Nat) :
    (only_target monitors t).length = monitors.length := by
  simp only [only_target]
  rw [List.getElem?_map]
  cases monitors[t]? <;> simp

/-! ### Claims C5, C6, C2, C10 -/

theorem toggle_toggle (monitors : List Monitor) (t : Nat) :
    toggle (toggle monitors t) t = monitors := by
  cases h : monitors[t]? with
  | none => simp [toggle, h]
  | some mon =>
    have ht : t < monitors.length := (List.getElem?_eq_some_iff.1 h).1
    simp only [toggle, h, List.getElem?_set_self ht]
    rw [List.set_set]
    have hmon : { mon with is_enabled := !!mon.is_enabled } = mon := by
      rw [Bool.not_not]
    rw [hmon]
    exact set_of_lookup _ _ _ h

/-- Claim C5: applying the `toggle` action twice to the same target, with no
other mutation between, leaves every monitor's `is_enabled` flag equal to its
original value. -/
theorem toggle_twice_restores (monitors : List Monitor) (t i : Nat) :
    ((toggle (toggle monitors t) t)[i]?).map Monitor.is_enabled =
      (monitors[i]?).map Monitor.is_enabled := by
  rw [toggle_toggle]

/-- Claim C6: for a valid target index, applying `enable-only` twice with the
same target yields the same state as applying it once (the result is a fixed
point of the action). -/
theorem enable_only_idempotent (monitors : List Monitor) (t : Nat)
    (ht : t < monitors.length) :
    only_target (only_target monitors t) t = only_target monitors t := by
  have hlen : (only_target monitors t).length = monitors.length :=
    only_target_length monitors t
  apply List.ext_getElem?
  intro i
  rw [only_target_lookup _ _ _ (by rw [hlen]; exact ht),
      only_target_lookup _ _ _ ht]
  cases monitors[i]? <;> rfl

/-- Claim C2: `toggle-only` enables every monitor exactly when the target is
currently enabled and is the only enabled monitor (a full restore); in every
other case it coincides with `enable-only`, enabling the target and disabling
all other monitors. -/
theorem toggle_only_cases (monitors : List Monitor) (t : Nat)
    (ht : t < monitors.length) :
    ((monitors.get ⟨t, ht⟩).is_enabled = true ∧ (get_enabled monitors).length = 1 →
      toggle_only monitors t = enable_all monitors ∧
      ∀ mon ∈ toggle_only monitors t, mon.is_enabled = true) ∧
    (¬((monitors.get ⟨t, ht⟩).is_enabled = true ∧ (get_enabled monitors).length = 1) →
      toggle_only monitors t = only_target monitors t ∧
      ∀ i : Nat, ((toggle_only monitors t)[i]?).map Monitor.is_enabled =
        (monitors[i]?).map (fun _ => decide (i = t))) := by
  have hmt : monitors[t]? = some (monitors.get ⟨t, ht⟩) := by
    rw [List.getElem?_eq_getElem ht]
    rfl
  constructor

  · intro hcond
    have heq : toggle_only monitors t = enable_all monitors := by
      simp only [toggle_only, hmt]
      rw [if_pos hcond]
    refine ⟨heq, ?_⟩
    rw [heq]
    intro mon hmem
    simp only [enable_all, List.mem_map] at hmem
    obtain ⟨m0, _, rfl⟩ := hmem
    rfl
  · intro hcond
    have heq : toggle_only monitors t = only_target monitors t := by
      simp only [toggle_only, hmt]
      rw [if_neg hcond]
    refine ⟨heq, ?_⟩
    intro i
    rw [heq, only_target_lookup _ _ _ ht, Option.map_map]
    cases monitors[i]? <;> rfl

/-- Claim C10: for every monitor list and target index, the `toggle-only`
branch of nvidia_toggle.py and the `toggle-only` branch of xtoggle.py compute
the same resulting state. -/
theorem toggle_only_nv_eq (monitors : List Monitor) (t : Nat) :
    toggle_only_nv monitors t = toggle_only monitors t := by
  cases h : monitors[t]? with
  | none => simp [toggle_only, toggle_only_nv, h]
  | some tgt =>
    have hmem : tgt ∈ monitors := List.getElem?_mem h
    simp only [toggle_only, toggle_only_nv, h]
    by_cases he : tgt.is_enabled = true
    · have hpos : 0 < (get_enabled monitors).length :=
        List.length_pos_of_mem
          (show tgt ∈ get_enabled monitors by
            simp [get_enabled, List.mem_filter, hmem, he])
      by_cases h1 : (get_enabled monitors).length = 1
      · rw [if_neg (by simp [he]; omega), if_pos ⟨he, h1⟩]
      · rw [if_pos (Or.inr (by omega)), if_neg (by simp [h1])]
    · rw [if_pos (Or.inl (by simpa using he)), if_neg (by simp [he])]

/-! ### Layout recalculation: specification of the computed positions -/

/-- Specification device for `recalc_go` restricted to the enabled sublist:
assign consecutive positions starting at `total`. -/
def place (total : Nat) : List Monitor → List Monitor
  | [] => []
  | mon :: rest => { mon with xpos := (total : Int) } :: place (total + mon.width) rest

theorem place_length (total : Nat) (es : List Monitor) :
    (place total es).length = es.length := by
  induction es generalizing total with
  | nil => rfl
  | cons mon rest ih => simp [place, ih]

theorem place_map_width (total : Nat) (es : List Monitor) :
    (place total es).map (fun mon => mon.width) = es.map (fun mon => mon.width) := by
  induction es generalizing total with
  | nil => rfl
  | cons mon rest ih => simp [place, ih]

theorem get_enabled_recalc_go (monitors : List Monitor) : ∀ total : Nat,
    get_enabled (recalc_go total monitors) = place total (get_enabled monitors) := by
  induction monitors with
  | nil => intro total; rfl
  | cons mon rest ih =>
    intro total
    have ih2 : ∀ t2 : Nat,
        List.filter (fun m2 => m2.is_enabled) (recalc_go t2 rest) =
          place t2 (List.filter (fun m2 => m2.is_enabled) rest) :=
      fun t2 => ih t2
    by_cases he : mon.is_enabled = true
    · simp [recalc_go, get_enabled, he, List.filter_cons, place, ih2]
    · simp [recalc_go, get_enabled, he, List.filter_cons, ih2]

theorem recalc_go_lookup_disabled (monitors : List Monitor) :
    ∀ (total i : Nat) (mon : Monitor), monitors[i]? = some mon →
      mon.is_enabled = false → (recalc_go total monitors)[i]? = some mon := by
  induction monitors with
  | nil => intro total i mon h; simp at h
  | cons a rest ih =>
    intro total i mon h hd
    cases i with
    | zero =>
      have ha : a = mon := by simpa using h
      subst ha
      simp [recalc_go, hd]
    | succ n =>
      have h2 : rest[n]? = some mon := by simpa using h
      by_cases hae : a.is_enabled = true <;>
        simp [recalc_go, hae, ih _ n mon h2 hd]

/-- All fields except `xpos` are preserved by `recalc_go`, expressed by
mapping `xpos` to a constant. -/
def eraseXpos (mon : Monitor) : Monitor := { mon with xpos := 0 }

theorem recalc_go_map_erase (monitors : List Monitor) : ∀ total : Nat,
    (recalc_go total monitors).map eraseXpos = monitors.map eraseXpos := by
  induction monitors with
  | nil => intro total; rfl
  | cons mon rest ih =>
    intro total
    by_cases he : mon.is_enabled = true <;>
      simp [recalc_go, he, ih, eraseXpos]

theorem place_lookup (es : List Monitor) : ∀ total k : Nat,
    (place total es)[k]? = (es[k]?).map
      (fun mon =>
        { mon with
          xpos := ((total + ((es.map (fun m2 => m2.width)).take k).sum : Nat) : Int) }) := by
  induction es with
  | nil => intro total k; rfl
  | cons mon rest ih =>
    intro total k
    cases k with
    | zero => simp [place]
    | succ n =>
      simp only [place, List.getElem?_cons_succ, ih (total + mon.width) n,
        List.map_cons, List.take_succ_cons, List.sum_cons]
      cases rest[n]? with
      | none => rfl
      | some m2 => simp [Nat.add_assoc]

theorem sum_take_succ_lookup (xs : List Nat) : ∀ (k x : Nat), xs[k]? = some x →
    (xs.take (k + 1)).sum = (xs.take k).sum + x := by
  induction xs with
  | nil => intro k x h; simp at h
  | cons a r ih =>
    intro k x h
    cases k with
    | zero =>
      have : a = x := by simpa using h
      subst this
      simp
    | succ n =>
      have h2 : r[n]? = some x := by simpa using h
      simp [List.take_succ_cons, ih n x h2, Nat.add_assoc]

theorem sum_take_le (xs : List Nat) : ∀ n : Nat, (xs.take n).sum ≤ xs.sum := by
  induction xs with
  | nil => simp
  | cons x r ih =>
    intro n
    cases n with
    | zero => simp
    | succ m =>
      simp only [List.take_succ_cons, List.sum_cons]
      exact Nat.add_le_add_left (ih m) x

theorem sum_take_mono (xs : List Nat) : ∀ a b : Nat, a ≤ b →
    (xs.take a).sum ≤ (xs.take b).sum := by
  induction xs with
  | nil => simp
  | cons x r ih =>
    intro a b hab
    cases a with
    | zero => simp
    | succ a2 =>
      cases b with
      | zero => exact absurd hab (by omega)
      | succ b2 =>
        simp only [List.take_succ_cons, List.sum_cons]
        exact Nat.add_le_add_left (ih a2 b2 (Nat.le_of_succ_le_succ hab)) x

/-- Claim C7: layout recalculation never modifies any monitor's `ypos` (first
conjunct), changes nothing but `xpos` on any monitor (second conjunct), and
leaves disabled monitors entirely untouched, `xpos` included (third
conjunct). -/
theorem recalculate_frame (monitors : List Monitor) :
    ((recalculate_positions monitors).map (fun mon => mon.ypos) =
      monitors.map (fun mon => mon.ypos)) ∧
    ((recalculate_positions monitors).map eraseXpos = monitors.map eraseXpos) ∧
    (∀ (i : Nat) (mon : Monitor), monitors[i]? = some mon →
      mon.is_enabled = false → (recalculate_positions monitors)[i]? = some mon) := by
  have herase : (recalculate_positions monitors).map eraseXpos =
      monitors.map eraseXpos := recalc_go_map_erase monitors 0
  refine ⟨?_, herase,
    fun i mon h hd => recalc_go_lookup_disabled monitors 0 i mon h hd⟩
  have h2 := congrArg (List.map (fun mon : Monitor => mon.ypos)) herase
  rw [List.map_map, List.map_map] at h2
  exact h2

/-- Claim C1: after layout recalculation, the enabled monitors (in order) are
positioned by a running total of widths: the first is at `xpos = 0`, each next
one starts exactly where the previous ends (no gaps, no overlaps), positions
are strictly stacked so the `[xpos, xpos+width)` intervals are pairwise
disjoint, and the total width of the enabled monitors is attained as
`max (xpos + width)` over them (some monitor attains it and it bounds all). -/
theorem recalculate_layout (monitors es : List Monitor)
    (hes : es = get_enabled (recalculate_positions monitors))
    (hne : es ≠ []) :
    (es.head hne).xpos = 0 ∧
    (∀ k : Nat, ∀ hk : k + 1 < es.length,
      (es.get ⟨k + 1, hk⟩).xpos =
        (es.get ⟨k, Nat.lt_of_succ_lt hk⟩).xpos +
          ((es.get ⟨k, Nat.lt_of_succ_lt hk⟩).width : Int)) ∧
    (∀ (k l : Nat) (hk : k < es.length) (hl : l < es.length), k < l →
      (es.get ⟨k, hk⟩).xpos + ((es.get ⟨k, hk⟩).width : Int) ≤
        (es.get ⟨l, hl⟩).xpos) ∧
    (∃ mon ∈ es, mon.xpos + (mon.width : Int) =
      (((es.map (fun m2 => m2.width)).sum : Nat) : Int)) ∧
    (∀ mon ∈ es, mon.xpos + (mon.width : Int) ≤
      (((es.map (fun m2 => m2.width)).sum : Nat) : Int)) := by
  have hplace : es = place 0 (get_enabled monitors) := by
    rw [hes, recalculate_positions, get_enabled_recalc_go]
  set E := get_enabled monitors with hE
  set W := E.map (fun m2 => m2.width) with hW
  have hlen : es.length = E.length := by rw [hplace, place_length]
  have hlenW : W.length = E.length := by rw [hW, List.length_map]
  have hmapW : es.map (fun m2 => m2.width) = W := by
    rw [hplace, place_map_width, hW]
  have hlook : ∀ k : Nat, es[k]? = (E[k]?).map
      (fun mon => { mon with xpos := (((W.take k).sum : Nat) : Int) }) := by
    intro k
    rw [hplace, place_lookup]
    simp [hW]
  have hget : ∀ (k : Nat) (hk : k < es.length) (hkE : k < E.length),
      es.get ⟨k, hk⟩ =
        { E.get ⟨k, hkE⟩ with xpos := (((W.take k).sum : Nat) : Int) } := by
    intro k hk hkE
    have h1 : es[k]? = some (es.get ⟨k, hk⟩) := by
      rw [List.getElem?_eq_getElem hk]; rfl
    have h2 : E[k]? = some (E.get ⟨k, hkE⟩) := by
      rw [List.getElem?_eq_getElem hkE]; rfl
    rw [hlook k, h2] at h1
    exact (Option.some.inj h1).symm
  have hWlook : ∀ (k : Nat) (hkE : k < E.length),
      W[k]? = some ((E.get ⟨k, hkE⟩).width) := by
    intro k hkE
    rw [hW, List.getElem?_map, List.getElem?_eq_getElem hkE]
    rfl
  have hsum_succ : ∀ (k : Nat) (hkE : k < E.length),
      (W.take (k + 1)).sum = (W.take k).sum + (E.get ⟨k, hkE⟩).width :=
    fun k hkE => sum_take_succ_lookup W k _ (hWlook k hkE)
  refine ⟨?_, ?_, ?_, ?_, ?_⟩
  · -- first enabled monitor sits at 0
    have h0 : 0 < es.length := List.length_pos.mpr hne
    have h0E : 0 < E.length := by rw [← hlen]; exact h0
    have : es.head hne = es.get ⟨0, h0⟩ := by
      rw [List.head_eq_getElem]; rfl
    rw [this, hget 0 h0 h0E]
    simp
  · -- adjacency
    intro k hk1
    have hk : k < es.length := Nat.lt_of_succ_lt hk1
    have hkE : k < E.length := by rw [← hlen]; exact hk
    have hk1E : k + 1 < E.length := by rw [← hlen]; exact hk1
    rw [hget (k + 1) hk1 hk1E, hget k hk hkE]
    show (((W.take (k + 1)).sum : Nat) : Int) =
      (((W.take k).sum : Nat) : Int) + ((E.get ⟨k, hkE⟩).width : Int)
    rw [hsum_succ k hkE]
    push_cast
    ring
  · -- pairwise disjointness of the occupied intervals
    intro k l hk hl hkl
    have hkE : k < E.length := by rw [← hlen]; exact hk
    have hlE : l < E.length := by rw [← hlen]; exact hl
    rw [hget k hk hkE, hget l hl hlE]
    show (((W.take k).sum : Nat) : Int) + ((E.get ⟨k, hkE⟩).width : Int) ≤
      (((W.take l).sum : Nat) : Int)
    have h1 : (W.take k).sum + (E.get ⟨k, hkE⟩).width = (W.take (k + 1)).sum :=
      (hsum_succ k hkE).symm
    have h2 : (W.take (k + 1)).sum ≤ (W.take l).sum := sum_take_mono W _ _ hkl
    omega
  · -- the last enabled monitor attains the total width
    have h0 : 0 < es.length := List.length_pos.mpr hne
    have hk : es.length - 1 < es.length := by omega
    have hkE : es.length - 1 < E.length := by rw [← hlen]; exact hk
    refine ⟨es.get ⟨es.length - 1, hk⟩, List.get_mem es _ _, ?_⟩
    rw [hmapW, hget (es.length - 1) hk hkE]
    show (((W.take (es.length - 1)).sum : Nat) : Int) +
        ((E.get ⟨es.length - 1, hkE⟩).width : Int) = ((W.sum : Nat) : Int)
    have h1 := hsum_succ (es.length - 1) hkE
    have h2 : es.length - 1 + 1 = W.length := by
      rw [hlenW, ← hlen]; omega
    rw [h2] at h1
    rw [List.take_length] at h1
    omega
  · -- every enabled monitor ends at or before the total width
    intro mon hmem
    rw [hmapW]
    obtain ⟨k, hk, hkmon⟩ := List.mem_iff_getElem.1 hmem
    have hkE : k < E.length := by rw [← hlen]; exact hk
    have : mon = es.get ⟨k, hk⟩ := by rw [← hkmon]; rfl
    subst this
    rw [hget k hk hkE]
    show (((W.take k).sum : Nat) : Int) + ((E.get ⟨k, hkE⟩).width : Int) ≤
      ((W.sum : Nat) : Int)
    have h1 : (W.take k).sum + (E.get ⟨k, hkE⟩).width = (W.take (k + 1)).sum :=
      (hsum_succ k hkE).symm
    have h2 : (W.take (k + 1)).sum ≤ W.sum := sum_take_le W _
    omega

/-! ### Command synthesis: the primary mark -/

theorem off_ne_primary (a b c d : String) :
    "--output " ++ a ++ b ++ c ++ d ≠ "--primary" := by
  intro h
  have h2 := congrArg String.data h
  simp only [String.data_append] at h2
  simp at h2

theorem mode_ne_primary (a b : String) :
    "--mode " ++ a ++ "x" ++ b ≠ "--primary" := by
  intro h
  have h2 := congrArg String.data h
  simp only [String.data_append] at h2
  simp at h2

theorem rate_ne_primary (a : String) : "--rate " ++ a ≠ "--primary" := by
  intro h
  have h2 := congrArg String.data h
  simp only [String.data_append] at h2
  simp at h2

theorem pos_ne_primary (a b : String) :
    "--pos " ++ a ++ "x" ++ b ≠ "--primary" := by
  intro h
  have h2 := congrArg String.data h
  simp only [String.data_append] at h2
  simp at h2

theorem output_ne_primary (a b c : String) :
    "--output " ++ a ++ b ++ c ≠ "--primary" := by
  intro h
  have h2 := congrArg String.data h
  simp only [String.data_append] at h2
  simp at h2

theorem clause_parts_enabled_not_primary (mon : Monitor)
    (he : mon.is_enabled = true) :
    xrandr_clause_parts mon false =
      ["--output " ++ squote ++ mon.name ++ squote,
       "--mode " ++ toString mon.width ++ "x" ++ toString mon.height,
       "--rate " ++ mon.rate,
       "--pos " ++ toString mon.xpos ++ "x" ++ toString mon.ypos] := by
  unfold xrandr_clause_parts
  rw [he]
  rfl

theorem clause_parts_enabled_primary (mon : Monitor)
    (he : mon.is_enabled = true) :
    xrandr_clause_parts mon true =
      ["--output " ++ squote ++ mon.name ++ squote,
       "--mode " ++ toString mon.width ++ "x" ++ toString mon.height,
       "--rate " ++ mon.rate,
       "--pos " ++ toString mon.xpos ++ "x" ++ toString mon.ypos,
       "--primary"] := by
  unfold xrandr_clause_parts
  rw [he]
  rfl

theorem clause_parts_disabled (mon : Monitor) (he : mon.is_enabled = false)
    (b : Bool) :
    xrandr_clause_parts mon b =
      ["--output " ++ squote ++ mon.name ++ squote ++ " --off"] := by
  unfold xrandr_clause_parts
  rw [he]
  rfl

/-- A clause contains the `--primary` word iff its monitor is enabled and is
the designated primary. -/
theorem mem_primary_clause (mon : Monitor) (b : Bool) :
    "--primary" ∈ xrandr_clause_parts mon b ↔
      (mon.is_enabled = true ∧ b = true) := by
  cases he : mon.is_enabled
  · rw [clause_parts_disabled mon he b]
    constructor
    · intro hmem
      rw [List.mem_singleton] at hmem
      exact absurd hmem.symm (off_ne_primary _ _ _ _)
    · rintro ⟨hcontra, _⟩
      exact absurd hcontra Bool.false_ne_true
  · cases b
    · rw [clause_parts_enabled_not_primary mon he]
      constructor
      · intro hmem
        simp only [List.mem_cons, List.not_mem_nil, or_false] at hmem
        rcases hmem with h | h | h | h
        · exact absurd h.symm (output_ne_primary _ _ _)
        · exact absurd h.symm (mode_ne_primary _ _)
        · exact absurd h.symm (rate_ne_primary _)
        · exact absurd h.symm (pos_ne_primary _ _)
      · rintro ⟨_, hcontra⟩
        exact absurd hcontra Bool.false_ne_true
    · rw [clause_parts_enabled_primary mon he]
      constructor
      · intro _
        exact ⟨rfl, rfl⟩
      · intro _
        simp [List.mem_cons]

theorem clauses_count_zero (q : Nat) (monitors : List Monitor) :
    ∀ i : Nat, q < i →
      (xrandr_clauses q i monitors).countP
        (fun parts => decide ("--primary" ∈ parts)) = 0 := by
  induction monitors with
  | nil => intro i _; rfl
  | cons mon rest ih =>
    intro i hqi
    rw [xrandr_clauses, List.countP_cons]
    have hne : (i == q) = false := by
      rw [beq_eq_false_iff_ne]
      omega
    have hmark : decide ("--primary" ∈ xrandr_clause_parts mon (i == q)) = false := by
      rw [decide_eq_false_iff_not, mem_primary_clause, hne]
      rintro ⟨_, hcontra⟩
      exact absurd hcontra Bool.false_ne_true
    rw [hmark, ih (i + 1) (by omega)]
    rfl

theorem clauses_count_one (monitors : List Monitor) :
    ∀ (i j : Nat) (hj : j < monitors.length),
      (monitors.get ⟨j, hj⟩).is_enabled = true →
      (xrandr_clauses (i + j) i monitors).countP
        (fun parts => decide ("--primary" ∈ parts)) = 1 := by
  induction monitors with
  | nil => intro i j hj; exact absurd hj (by simp)
  | cons mon rest ih =>
    intro i j hj hen
    cases j with
    | zero =>
      rw [xrandr_clauses, List.countP_cons]
      have hmark : decide ("--primary" ∈ xrandr_clause_parts mon (i == i + 0)) = true := by
        rw [decide_eq_true_iff, mem_primary_clause]
        refine ⟨hen, ?_⟩
        rw [Nat.beq_eq_true_eq]
        omega
      rw [hmark, clauses_count_zero (i + 0) rest (i + 1) (by omega)]
      rfl
    | succ n =>
      rw [xrandr_clauses, List.countP_cons]
      have hne : (i == i + (n + 1)) = false := by
        rw [beq_eq_false_iff_ne]
        omega
      have hmark : decide ("--primary" ∈ xrandr_clause_parts mon (i == i + (n + 1))) = false := by
        rw [decide_eq_false_iff_not, mem_primary_clause, hne]
        rintro ⟨_, hcontra⟩
        exact absurd hcontra Bool.false_ne_true
      have harith : i + (n + 1) = (i + 1) + n := by omega
      have hj2 : n < rest.length := by
        have := hj
        simp at this
        omega
      have hen2 : (rest.get ⟨n, hj2⟩).is_enabled = true := hen
      rw [hmark, harith, ih (i + 1) n hj2 hen2]
      rfl

theorem clauses_lookup (q : Nat) (monitors : List Monitor) :
    ∀ i k : Nat, (xrandr_clauses q i monitors)[k]? =
      (monitors[k]?).map (fun mon => xrandr_clause_parts mon (i + k == q)) := by
  induction monitors with
  | nil => intro i k; simp [xrandr_clauses]
  | cons mon rest ih =>
    intro i k
    cases k with
    | zero => simp [xrandr_clauses]
    | succ n =>
      rw [xrandr_clauses]
      rw [List.getElem?_cons_succ, List.getElem?_cons_succ, ih (i + 1) n]
      have harith : i + 1 + n = i + (n + 1) := by omega
      rw [harith]

theorem firstEnabledIdx_spec (monitors : List Monitor) (j : Nat)
    (h : firstEnabledIdx monitors = some j) :
    ∃ hj : j < monitors.length,
      (monitors.get ⟨j, hj⟩).is_enabled = true ∧
      ∀ k : Nat, k < j → ∀ mk2 : Monitor, monitors[k]? = some mk2 →
        mk2.is_enabled = false := by
  rw [firstEnabledIdx, List.findIdx?_eq_some_iff_getElem] at h
  obtain ⟨hj, hp, hbefore⟩ := h
  refine ⟨hj, hp, ?_⟩
  intro k hk mk2 hmk
  have hklt : k < monitors.length := Nat.lt_trans hk hj
  have hsome : monitors[k]? = some (monitors.get ⟨k, hklt⟩) := by
    rw [List.getElem?_eq_getElem hklt]
    rfl
  rw [hmk] at hsome
  have heq : mk2 = monitors.get ⟨k, hklt⟩ := Option.some.inj hsome
  rw [heq]
  simpa using hbefore k hk

theorem firstEnabledIdx_isSome (monitors : List Monitor)
    (h : get_enabled monitors ≠ []) : ∃ j, firstEnabledIdx monitors = some j := by
  cases hf : firstEnabledIdx monitors with
  | some j => exact ⟨j, rfl⟩
  | none =>
    exfalso
    rw [firstEnabledIdx, List.findIdx?_eq_none_iff] at hf
    apply h
    rw [get_enabled, List.filter_eq_nil_iff]
    intro mon hmem
    simp [hf mon hmem]

theorem clauses_mark_iff (monitors : List Monitor) (q k : Nat)
    (parts : List String)
    (hk : (xrandr_clauses q 0 monitors)[k]? = some parts) :
    ("--primary" ∈ parts ↔
      (k = q ∧ ∃ mon, monitors[k]? = some mon ∧ mon.is_enabled = true)) := by
  rw [clauses_lookup q monitors 0 k] at hk
  cases hmk : monitors[k]? with
  | none =>
    rw [hmk] at hk
    simp at hk
  | some mon =>
    rw [hmk] at hk
    have hparts : parts = xrandr_clause_parts mon (0 + k == q) := by
      have := hk
      simp only [Option.map_some'] at this
      exact (Option.some.inj this).symm
    subst hparts
    rw [mem_primary_clause]
    constructor
    · rintro ⟨hen, hbeq⟩
      have : 0 + k = q := by
        rw [beq_iff_eq] at hbeq
        exact hbeq
      exact ⟨by omega, mon, rfl, hen⟩
    · rintro ⟨hkq, mon2, hmon2, hen2⟩
      have : mon2 = mon := (Option.some.inj hmon2).symm
      subst this
      refine ⟨hen2, ?_⟩
      rw [beq_iff_eq]
      omega

/-- Claim C3: for every monitor list with at least one enabled monitor, the
primary chosen by `get_new_primary` exists and the synthesized xrandr command
marks exactly one clause with `--primary`; a clause carries `--primary` iff
it belongs to the chosen enabled primary; the chosen primary is the
previously designated one when that monitor is still enabled, and otherwise
the first enabled monitor in canonical order. -/
theorem xrandr_primary_unique (monitors : List Monitor) (op : Option Nat)
    (h : get_enabled monitors ≠ []) :
    ∃ q, get_new_primary monitors op = some q ∧
      (xrandr_clauses q 0 monitors).countP
        (fun parts => decide ("--primary" ∈ parts)) = 1 ∧
      (∀ (k : Nat) (parts : List String),
        (xrandr_clauses q 0 monitors)[k]? = some parts →
        ("--primary" ∈ parts ↔
          (k = q ∧ ∃ mon, monitors[k]? = some mon ∧ mon.is_enabled = true))) ∧
      (∀ (p : Nat) (mon : Monitor), op = some p → monitors[p]? = some mon →
        mon.is_enabled = true → q = p) ∧
      ((∀ (p : Nat) (mon : Monitor), op = some p → monitors[p]? = some mon →
          mon.is_enabled = false) →
        ∃ hq : q < monitors.length,
          (monitors.get ⟨q, hq⟩).is_enabled = true ∧
          ∀ k : Nat, k < q → ∀ mk2 : Monitor, monitors[k]? = some mk2 →
            mk2.is_enabled = false) := by
  obtain ⟨j, hj⟩ := firstEnabledIdx_isSome monitors h
  obtain ⟨hjlt, hjen, hjfirst⟩ := firstEnabledIdx_spec monitors j hj
  have hcountj : (xrandr_clauses j 0 monitors).countP
      (fun parts => decide ("--primary" ∈ parts)) = 1 := by
    have := clauses_count_one monitors 0 j hjlt hjen
    simpa using this
  cases op with
  | none =>
    refine ⟨j, by simp [get_new_primary, hj], hcountj,
      fun k parts hk => clauses_mark_iff monitors j k parts hk, ?_, ?_⟩
    · intro p mon hop
      exact absurd hop (by simp)
    · intro _
      exact ⟨hjlt, hjen, hjfirst⟩
  | some p =>
    cases hp : monitors[p]? with
    | none =>
      refine ⟨j, by simp [get_new_primary, hp, hj], hcountj,
        fun k parts hk => clauses_mark_iff monitors j k parts hk, ?_, ?_⟩
      · intro p2 mon hop hmon _
        have hpp : p2 = p := (Option.some.inj hop).symm
        subst hpp
        rw [hp] at hmon
        exact Option.noConfusion hmon
      · intro _
        exact ⟨hjlt, hjen, hjfirst⟩
    | some mon =>
      by_cases hen : mon.is_enabled = true
      · have hplt : p < monitors.length := (List.getElem?_eq_some_iff.1 hp).1
        have hpen : (monitors.get ⟨p, hplt⟩).is_enabled = true := by
          have hsome : monitors[p]? = some (monitors.get ⟨p, hplt⟩) := by
            rw [List.getElem?_eq_getElem hplt]
            rfl
          rw [hp] at hsome
          rw [← Option.some.inj hsome]
          exact hen
        refine ⟨p, by simp [get_new_primary, hp, hen], ?_,
          fun k parts hk => clauses_mark_iff monitors p k parts hk, ?_, ?_⟩
        · have := clauses_count_one monitors 0 p hplt hpen
          simpa using this
        · intro p2 mon2 hop hmon2 hen2
          exact Option.some.inj hop
        · intro hcond
          exfalso
          have := hcond p mon rfl hp
          rw [hen] at this
          exact Bool.noConfusion this
      · have hen2 : mon.is_enabled = false := by
          cases hval : mon.is_enabled
          · rfl
          · exact absurd hval hen
        refine ⟨j, by simp [get_new_primary, hp, hen2, hj], hcountj,
          fun k parts hk => clauses_mark_iff monitors j k parts hk, ?_, ?_⟩
        · intro p2 mon2 hop hmon2 hen3
          have hpp : p2 = p := (Option.some.inj hop).symm
          subst hpp
          rw [hp] at hmon2
          have : mon2 = mon := (Option.some.inj hmon2).symm
          subst this
          rw [hen2] at hen3
          exact Bool.noConfusion hen3
        · intro _
          exact ⟨hjlt, hjen, hjfirst⟩

/-- Claim C4: when zero monitors are enabled, command synthesis fails with
the validation error and produces no command string, for both backends. -/
theorem create_command_requires_enabled (monitors : List Monitor) (q : Nat)
    (h : get_enabled monitors = []) :
    create_command monitors q XRANDR = Except.error RunError.validationError ∧
    create_command monitors q NVIDIA = Except.error RunError.validationError := by
  constructor <;> simp [create_command, h]

/-- Claim C8: in the xtoggle.py action pipeline, primary selection runs
before the empty-enabled-set validation of `create_command`; with zero
enabled monitors the pipeline therefore fails with the `IndexError` of
`get_enabled(monitors)[0]` and never reaches the validation error. -/
theorem pipeline_index_error (monitors : List Monitor) (op : Option Nat)
    (manager : String) (h : get_enabled monitors = []) :
    main_pipeline monitors op manager = Except.error RunError.indexError := by
  have hrec : get_enabled (recalculate_positions monitors) = [] := by
    rw [recalculate_positions, get_enabled_recalc_go, h]
    rfl
  have hnone : ∀ (i : Nat) (mon : Monitor),
      (recalculate_positions monitors)[i]? = some mon →
        mon.is_enabled = false := by
    intro i mon hi
    have hmem : mon ∈ recalculate_positions monitors := List.getElem?_mem hi
    have h2 : ∀ mon2 ∈ recalculate_positions monitors,
        ¬(mon2.is_enabled = true) := by
      intro mon2 hmem2
      have := List.filter_eq_nil_iff.1 hrec mon2 hmem2
      simpa using this
    have := h2 mon hmem
    cases hval : mon.is_enabled
    · rfl
    · exact absurd hval this
  have hfirst : firstEnabledIdx (recalculate_positions monitors) = none := by
    rw [firstEnabledIdx, List.findIdx?_eq_none_iff]
    intro mon hmem
    obtain ⟨i, hi⟩ := List.mem_iff_getElem?.1 hmem
    exact hnone i mon hi
  cases op with
  | none => simp [main_pipeline, get_new_primary, hfirst]
  | some p =>
    cases hp : (recalculate_positions monitors)[p]? with
    | none => simp [main_pipeline, get_new_primary, hp, hfirst]
    | some mon =>
      have hd := hnone p mon hp
      simp [main_pipeline, get_new_primary, hp, hd, hfirst]

/-! ### Registry parsing: the recorded original primary -/

theorem foldl_primary_const (post : List XmlEntry) :
    ∀ acc : Option String,
      (∀ e2 ∈ post, e2.connected = true → e2.primaryTag = none) →
      post.foldl primary_step acc = acc := by
  induction post with
  | nil => intro acc _; rfl
  | cons e2 rest ih =>
    intro acc hall
    have he2 := hall e2 (List.mem_cons_self e2 rest)
    have hrest : ∀ x ∈ rest, x.connected = true → x.primaryTag = none :=
      fun x hx => hall x (List.mem_cons_of_mem e2 hx)
    rw [List.foldl_cons]
    have hstep : primary_step acc e2 = acc := by
      unfold primary_step
      by_cases hc : e2.connected = true
      · rw [if_pos hc, he2 hc]
      · rw [if_neg hc]
    rw [hstep]
    exact ih acc hrest

/-- Claim C9: the recorded original primary is determined solely by the last
connected entry carrying a `primary` tag: it is that monitor when the tag
text is `yes` and `None` otherwise, discarding any earlier designation. -/
theorem original_primary_last_tag (pre post : List XmlEntry) (e : XmlEntry)
    (txt : Option String) (he : e.connected = true)
    (ht : e.primaryTag = some txt)
    (hpost : ∀ e2 ∈ post, e2.connected = true → e2.primaryTag = none) :
    parse_original_primary (pre ++ e :: post) =
      if txt = some "yes" then some e.name else none := by
  rw [parse_original_primary, List.foldl_append, List.foldl_cons]
  have hstep : primary_step (pre.foldl primary_step none) e =
      if txt = some "yes" then some e.name else none := by
    unfold primary_step
    rw [if_pos he, ht]
  rw [hstep]
  exact foldl_primary_const post _ hpost

/-! ### Concrete instances used by the witnesses -/

def monA : Monitor :=
  { name := "HDMI-0", xpos := 0, ypos := 0, rank := 1, width := 1920,
    height := 1080, rate := "60.00", is_enabled := true,
    metamodes := "HDMI-0: 1920x1080 +0+0" }

def monB : Monitor :=
  { name := "DP-1", xpos := 1920, ypos := 0, rank := 2, width := 1280,
    height := 1024, rate := "75.00", is_enabled := false,
    metamodes := "DP-1: 1280x1024 +1920+0" }

def exMs : List Monitor := [monA, monB]

def exMsOff : List Monitor := [monB]

def entA : XmlEntry :=
  { connected := true, name := "HDMI-0", primaryTag := some (some "yes") }

def entB : XmlEntry :=
  { connected := true, name := "DP-1", primaryTag := some (some "no") }

/-! ### Witnesses -/

theorem recalculate_layout_witness :
    (get_enabled (recalculate_positions exMs) ≠ []) ∧
    ∃ mon ∈ get_enabled (recalculate_positions exMs),
      mon.xpos + (mon.width : Int) =
        ((((get_enabled (recalculate_positions exMs)).map
            (fun m2 => m2.width)).sum : Nat) : Int) :=
  ⟨by decide, (recalculate_layout exMs _ rfl (by decide)).2.2.2.1⟩

theorem toggle_only_cases_witness :
    toggle_only exMs 0 = enable_all exMs ∧
    ∀ mon ∈ toggle_only exMs 0, mon.is_enabled = true :=
  (toggle_only_cases exMs 0 (by decide)).1 (by decide)

theorem xrandr_primary_unique_witness :
    get_enabled exMs ≠ [] ∧
    ∃ q, get_new_primary exMs none = some q ∧
      (xrandr_clauses q 0 exMs).countP
        (fun parts => decide ("--primary" ∈ parts)) = 1 ∧
      (∀ (k : Nat) (parts : List String),
        (xrandr_clauses q 0 exMs)[k]? = some parts →
        ("--primary" ∈ parts ↔
          (k = q ∧ ∃ mon, exMs[k]? = some mon ∧ mon.is_enabled = true))) ∧
      (∀ (p : Nat) (mon : Monitor), (none : Option Nat) = some p →
        exMs[p]? = some mon → mon.is_enabled = true → q = p) ∧
      ((∀ (p : Nat) (mon : Monitor), (none : Option Nat) = some p →
          exMs[p]? = some mon → mon.is_enabled = false) →
        ∃ hq : q < exMs.length,
          (exMs.get ⟨q, hq⟩).is_enabled = true ∧
          ∀ k : Nat, k < q → ∀ mk2 : Monitor, exMs[k]? = some mk2 →
            mk2.is_enabled = false) :=
  ⟨by decide, xrandr_primary_unique exMs none (by decide)⟩

theorem create_command_requires_enabled_witness :
    get_enabled exMsOff = [] ∧
    (create_command exMsOff 0 XRANDR = Except.error RunError.validationError ∧
     create_command exMsOff 0 NVIDIA = Except.error RunError.validationError) :=
  ⟨by decide, create_command_requires_enabled exMsOff 0 (by decide)⟩

theorem enable_only_idempotent_witness :
    1 < exMs.length ∧
    only_target (only_target exMs 1) 1 = only_target exMs 1 :=
  ⟨by decide, enable_only_idempotent exMs 1 (by decide)⟩

theorem recalculate_frame_witness :
    exMs[1]? = some monB ∧ monB.is_enabled = false ∧
    (recalculate_positions exMs)[1]? = some monB :=
  ⟨by decide, by decide,
    (recalculate_frame exMs).2.2 1 monB (by decide) (by decide)⟩

theorem pipeline_index_error_witness :
    get_enabled exMsOff = [] ∧
    main_pipeline exMsOff (some 0) XRANDR = Except.error RunError.indexError :=
  ⟨by decide, pipeline_index_error exMsOff (some 0) XRANDR (by decide)⟩

theorem original_primary_last_tag_witness :
    entB.connected = true ∧ entB.primaryTag = some (some "no") ∧
    parse_original_primary ([entA] ++ entB :: []) =
      (if (some "no" : Option String) = some "yes" then some entB.name
       else none) :=
  ⟨by decide, by decide,
    original_primary_last_tag [entA] [] entB (some "no") (by decide) (by decide)
      (by intro e2 h2; exact absurd h2 (List.not_mem_nil e2))⟩
